import Mathlib

/-!
Shallow embedding of `drivers/staging/android/lowmemorykiller.c`
(sultan-kernel-venturi fork).

The module keeps two configured threshold arrays (`lowmem_adj`,
`lowmem_minfree`, capacity 6 each, with configured lengths
`lowmem_adj_size` / `lowmem_minfree_size`), two "do not kill" protection
lists (`donotkill_proc` for user processes, `donotkill_sysproc` for
system processes), and the pending-kill pair
(`lowmem_deathpending : task pointer` / `lowmem_deathpending_timeout :
jiffies value`).  `lowmem_shrink` is the shrinker callback; on each call
it checks the pending-kill cooldown, resolves a minimum oom_adj from the
threshold arrays, computes the reclaimable estimate, scans the process
list keeping one best candidate per protection class, and kills the best
candidate of the first non-empty class in the order killable, user
protected, system protected.

Machine integers are modelled with Nat (page counts, sizes, jiffies:
all non-negative in the C source, where they are unsigned or derived
from non-negative page-state counters) and Int (oom_adj values and the
`int rem` accumulator, which can go negative via `rem -= tasksize`).
-/

namespace LMK

/-- C `strncmp`-style prefix check: `prefixAt needle hay = true` iff
`needle` is a prefix of `hay`. -/
def prefixAt : List Char → List Char → Bool
  | [], _ => true
  | _ :: _, [] => false
  | a :: as, b :: bs => a == b && prefixAt as bs

/-- Semantics of C `strstr(haystack, needle) != NULL`: true iff `needle`
occurs contiguously somewhere inside `haystack` (an empty `needle` always
matches, as `strstr` then returns `haystack` itself). -/
def strstrFound (haystack needle : List Char) : Bool :=
  match haystack with
  | [] => prefixAt needle []
  | _ :: t => prefixAt needle haystack || strstrFound t needle

/-- Mathematical statement of contiguous-substring occurrence, used to
state properties of `strstrFound`. -/
def occursIn (needle haystack : List Char) : Prop :=
  ∃ l r, haystack = l ++ needle ++ r

/-- `struct donotkill`: an enable flag and a list of configured process
names (`names` together with `names_count`; we model the populated part
of the array as a list, so `names_count = names.length`). -/
structure Donotkill where
  enabled : Bool
  names : List (List Char)

/-- `is_in_donotkill_list`: if the feature is enabled and the list is
non-empty, walk the configured names and test
`strstr(names[i], proc_name) != NULL` — i.e. the haystack is the
configured name and the needle is the process name. -/
def is_in_donotkill_list (proc_name : List Char) (d : Donotkill) : Bool :=
  if d.enabled ∧ d.names.length > 0 then
    d.names.any (fun nm => strstrFound nm proc_name)
  else
    false

/-- `enum lowmem_process_type` with
`CONFIG_ANDROID_LOW_MEMORY_KILLER_DO_NOT_KILL_PROCESS` enabled. -/
inductive ProcType where
  | killable
  | doNotKill
  | doNotKillSys
deriving Repr, DecidableEq

/-- The classification performed inside `lowmem_shrink`'s scan loop:
check `is_in_donotkill_proc_list(p->comm)` (user list) first, then
`is_in_donotkill_sysproc_list(p->comm)` (system list); otherwise the
process stays `KILLABLE_PROCESS`. -/
def classify (u s : Donotkill) (name : List Char) : ProcType :=
  if is_in_donotkill_list name u then ProcType.doNotKill
  else if is_in_donotkill_list name s then ProcType.doNotKillSys
  else ProcType.killable

/-- Classifier written from the spec's words (section 4.2), for
comparison with `classify`: a configured token matches if *it* occurs
anywhere inside the process name (the opposite argument order of the
code's `strstr` call). -/
def classifySpecWords (u s : Donotkill) (name : List Char) : ProcType :=
  if u.enabled ∧ u.names.length > 0 ∧
      u.names.any (fun nm => strstrFound name nm) then ProcType.doNotKill
  else if s.enabled ∧ s.names.length > 0 ∧
      s.names.any (fun nm => strstrFound name nm) then ProcType.doNotKillSys
  else ProcType.killable

/-- `OOM_ADJUST_MAX` from `<linux/oom.h>` for this kernel era. -/
def OOM_ADJUST_MAX : Int := 15

/-- `HZ`, the jiffies-per-second tick rate; the exact value is
configuration-dependent and immaterial to the properties proved here. -/
def HZ : Nat := 100

/-- Module configuration: the two threshold arrays with their configured
lengths, and the two protection lists.  The arrays have a fixed capacity
of 6 cells (`ARRAY_SIZE(lowmem_adj)`); we model the cells as total
functions on indices so that out-of-range reads are representable. -/
structure Config where
  lowmem_adj : Nat → Int
  lowmem_adj_size : Nat
  lowmem_minfree : Nat → Nat
  lowmem_minfree_size : Nat
  donotkill_proc : Donotkill
  donotkill_sysproc : Donotkill

/-- The `array_size` computation at the top of `lowmem_shrink`:
start from `ARRAY_SIZE(lowmem_adj) = 6`, clamp by `lowmem_adj_size`,
then clamp by `lowmem_minfree_size`. -/
def array_size_calc (adj_size minfree_size : Nat) : Nat :=
  let a0 := 6
  let a1 := if adj_size < a0 then adj_size else a0
  if minfree_size < a1 then minfree_size else a1

/-- The list of `(lowmem_adj[i], lowmem_minfree[i])` pairs actually
walked by the threshold loop, index `0` up to `array_size`. -/
def entriesOf (cfg : Config) : List (Int × Nat) :=
  (List.range (array_size_calc cfg.lowmem_adj_size cfg.lowmem_minfree_size)).map
    (fun i => (cfg.lowmem_adj i, cfg.lowmem_minfree i))

/-- The threshold-resolution loop of `lowmem_shrink`: `min_adj` starts at
`OOM_ADJUST_MAX + 1`; the first entry with
`other_free < lowmem_minfree[i] && other_file < lowmem_minfree[i]`
sets `min_adj = lowmem_adj[i]` and breaks. -/
def resolveMinAdj (entries : List (Int × Nat)) (other_free other_file : Nat) : Int :=
  match entries with
  | [] => OOM_ADJUST_MAX + 1
  | (a, mf) :: rest =>
    if other_free < mf ∧ other_file < mf then a
    else resolveMinAdj rest other_free other_file

/-- One process as seen by the scan loop: pid, `p->comm`, whether
`p->mm` and `p->signal` are non-NULL, `p->signal->oom_adj`, and
`get_mm_rss(p->mm)` (an `int` in the loop, hence `Int`). -/
structure Proc where
  pid : Nat
  comm : List Char
  has_mm : Bool
  has_sig : Bool
  oom_adj : Int
  rss : Int
deriving Repr, DecidableEq

/-- One per-class slot of the scan: `selected[t]`,
`selected_tasksize[t]`, `selected_oom_score_adj[t]`. -/
structure ScanSlot where
  task : Option Proc
  tasksize : Int
  adjv : Int
deriving Repr, DecidableEq

/-- The three per-class slots (scan-local selection state). -/
structure SelectionState where
  killable : ScanSlot
  user : ScanSlot
  sys : ScanSlot
deriving Repr, DecidableEq

def SelectionState.get (st : SelectionState) : ProcType → ScanSlot
  | ProcType.killable => st.killable
  | ProcType.doNotKill => st.user
  | ProcType.doNotKillSys => st.sys

def SelectionState.set (st : SelectionState) : ProcType → ScanSlot → SelectionState
  | ProcType.killable, sl => { st with killable := sl }
  | ProcType.doNotKill, sl => { st with user := sl }
  | ProcType.doNotKillSys, sl => { st with sys := sl }

/-- Initial selection state: no task selected, sizes 0, and every
class's `selected_oom_score_adj` seeded with `min_adj`. -/
def initSelection (min_adj : Int) : SelectionState :=
  ⟨⟨none, 0, min_adj⟩, ⟨none, 0, min_adj⟩, ⟨none, 0, min_adj⟩⟩

/-- The body of `for_each_process(p)` in `lowmem_shrink`: skip a process
with NULL `mm` or `signal`, or `oom_adj < min_adj`, or `tasksize <= 0`;
classify the remainder; then replace the class's current best unless the
current best exists and (`oom_adj` is lower, or equal with
`tasksize <= selected_tasksize`). -/
def considerProc (u s : Donotkill) (min_adj : Int)
    (st : SelectionState) (p : Proc) : SelectionState :=
  if p.has_mm = false ∨ p.has_sig = false then st
  else if p.oom_adj < min_adj then st
  else if p.rss ≤ 0 then st
  else
    let t := classify u s p.comm
    let slot := st.get t
    if slot.task.isSome ∧
        (p.oom_adj < slot.adjv ∨ (p.oom_adj = slot.adjv ∧ p.rss ≤ slot.tasksize)) then
      st
    else
      st.set t ⟨some p, p.rss, p.oom_adj⟩

/-- The whole scan loop over the live process list. -/
def scanProcs (u s : Donotkill) (min_adj : Int) (procs : List Proc) : SelectionState :=
  procs.foldl (considerProc u s min_adj) (initSelection min_adj)

/-- The kill loop after the scan: walk the process types in the order
`KILLABLE_PROCESS`, `DO_NOT_KILL_PROCESS`, `DO_NOT_KILL_SYSTEM_PROCESS`
and act on the first class whose slot holds a task, yielding that task
and its recorded `selected_tasksize`. -/
def selectVictim (st : SelectionState) : Option (Proc × Int) :=
  match st.killable.task with
  | some p => some (p, st.killable.tasksize)
  | none =>
    match st.user.task with
    | some p => some (p, st.user.tasksize)
    | none =>
      match st.sys.task with
      | some p => some (p, st.sys.tasksize)
      | none => none

/-- The memory statistics read by one `lowmem_shrink` pass.
`other_free` is `NR_FREE_PAGES`; `other_file` is
`NR_FILE_PAGES - NR_SHMEM` (shmem pages are a subset of file pages, so
the difference is taken as the non-negative cache count the snapshot
supplies). -/
structure MemStats where
  other_free : Nat
  other_file : Nat
  active_anon : Nat
  active_file : Nat
  inactive_anon : Nat
  inactive_file : Nat
deriving Repr, DecidableEq

/-- `rem`, the reclaimable estimate: the sum of active/inactive,
anonymous/file-backed page counts. -/
def reclaimEstimate (mem : MemStats) : Int :=
  (mem.active_anon : Int) + mem.active_file + mem.inactive_anon + mem.inactive_file

/-- The module's persistent kill-pending state:
`lowmem_deathpending` (a task pointer, modelled by the pid it points to,
`none` for NULL) and `lowmem_deathpending_timeout` (a jiffies value). -/
structure LmkState where
  deathpending : Option Nat
  deathpending_timeout : Nat
deriving Repr, DecidableEq

/-- `lowmem_deathpending = NULL`, `lowmem_deathpending_timeout = 0`:
the state at module load (static storage is zero-initialised). -/
def initLmkState : LmkState := ⟨none, 0⟩

/-- The outcome of one `lowmem_shrink` call: the returned `rem`, the
updated persistent state, and the task the pass sent `SIGKILL` to, if
any. -/
structure ShrinkResult where
  ret : Int
  state : LmkState
  killed : Option Proc
deriving Repr, DecidableEq

/-- `lowmem_shrink`.  Faithful to the source control flow:
1. if `lowmem_deathpending` is non-NULL and
   `time_before_eq(jiffies, lowmem_deathpending_timeout)`, return 0;
2. resolve `min_adj` from the truncated threshold arrays;
3. compute `rem` (the reclaimable estimate);
4. if `sc->nr_to_scan <= 0` (`nr_to_scan` is unsigned, so this means
   `= 0`) or `min_adj == OOM_ADJUST_MAX + 1`, return `rem`;
5. scan all processes, then kill the first non-empty class's selection,
   setting `lowmem_deathpending_timeout = jiffies + HZ` and subtracting
   the victim's recorded size from `rem`.  Note the source sets only the
   timeout here: `lowmem_deathpending` itself is never assigned. -/
def lowmem_shrink (cfg : Config) (mem : MemStats) (procs : List Proc)
    (jiffies nr_to_scan : Nat) (st : LmkState) : ShrinkResult :=
  if st.deathpending.isSome ∧ jiffies ≤ st.deathpending_timeout then
    ⟨0, st, none⟩
  else
    let min_adj := resolveMinAdj (entriesOf cfg) mem.other_free mem.other_file
    let rem := reclaimEstimate mem
    if nr_to_scan = 0 ∨ min_adj = OOM_ADJUST_MAX + 1 then
      ⟨rem, st, none⟩
    else
      let sel := scanProcs cfg.donotkill_proc cfg.donotkill_sysproc min_adj procs
      match selectVictim sel with
      | some (p, tsize) =>
        ⟨rem - tsize, { st with deathpending_timeout := jiffies + HZ }, some p⟩
      | none => ⟨rem, st, none⟩

/-- `task_notify_func`: on a process-exit notification, clear
`lowmem_deathpending` when the exiting task is the pending one. -/
def task_notify_func (task_pid : Nat) (st : LmkState) : LmkState :=
  if st.deathpending = some task_pid then { st with deathpending := none } else st

/-- The two external events that touch the module's persistent state. -/
inductive Event where
  | shrink (cfg : Config) (mem : MemStats) (procs : List Proc) (jiffies nr_to_scan : Nat)
  | notify (task_pid : Nat)

/-- State transition for one event. -/
def stepState (st : LmkState) : Event → LmkState
  | Event.shrink cfg mem procs j n => (lowmem_shrink cfg mem procs j n st).state
  | Event.notify pid => task_notify_func pid st

/-- The persistent state after a sequence of events from module load. -/
def runEvents (es : List Event) : LmkState :=
  es.foldl stepState initLmkState

/-! ### Concrete fixtures used to instantiate the theorems -/

/-- A disabled, empty protection list. -/
def dkOff : Donotkill := ⟨false, []⟩

/-- A configured protected token, the two-character name "ab". -/
def ceTok : List Char := ['a', 'b']

/-- An enabled user protection list whose single entry is `ceTok`. -/
def ceU : Donotkill := ⟨true, [ceTok]⟩

/-- A process name, the single character "b": not a superstring of any
configured token, but a substring of `ceTok`. -/
def ceName : List Char := ['b']

/-- An enabled protection list with single entry "x". -/
def uProt : Donotkill := ⟨true, [['x']]⟩

/-- A configuration whose single threshold entry is
`(adj 0, minfree 1000)`. -/
def cfgA : Config := ⟨fun _ => 0, 1, fun _ => 1000, 1, dkOff, dkOff⟩

/-- A configuration whose single threshold entry is `(adj 0, minfree 0)`:
no free/file counts can be below the 0 threshold, so no entry matches. -/
def cfgB : Config := ⟨fun _ => 0, 1, fun _ => 0, 1, dkOff, dkOff⟩

/-- Like `cfgB` but with different array cells beyond the configured
length (index 1 and up). -/
def cfgC : Config :=
  ⟨fun i => if i = 0 then 0 else 99, 1, fun i => if i = 0 then 0 else 77, 1, dkOff, dkOff⟩

/-- Memory statistics: no free pages, no file pages, 5 active anonymous
pages — so the reclaimable estimate is 5. -/
def memA : MemStats := ⟨0, 0, 5, 0, 0, 0⟩

/-- An eligible process: valid mm and signal, oom_adj 0, rss 7. -/
def procA : Proc := ⟨42, ['a'], true, true, 0, 7⟩

/-- An eligible killable process with oom_adj 3 and rss 10. -/
def procP : Proc := ⟨1, ['p'], true, true, 3, 10⟩

/-- An eligible killable process with oom_adj 3 and rss 20. -/
def procQ : Proc := ⟨2, ['q'], true, true, 3, 20⟩

/-! ### Helper lemmas -/

theorem initSelection_get (m : Int) (t : ProcType) :
    (initSelection m).get t = ⟨none, 0, m⟩ := by
  cases t <;> rfl

theorem get_set_same (st : SelectionState) (t : ProcType) (sl : ScanSlot) :
    (st.set t sl).get t = sl := by
  cases t <;> rfl

theorem considerProc_eligible (u s : Donotkill) (m : Int) (st : SelectionState)
    (p : Proc) (t : ProcType)
    (hm : p.has_mm = true) (hs : p.has_sig = true)
    (ha : m ≤ p.oom_adj) (hr : 0 < p.rss)
    (hct : classify u s p.comm = t) :
    considerProc u s m st p =
      if (st.get t).task.isSome ∧
          (p.oom_adj < (st.get t).adjv ∨
            (p.oom_adj = (st.get t).adjv ∧ p.rss ≤ (st.get t).tasksize)) then st
      else st.set t ⟨some p, p.rss, p.oom_adj⟩ := by
  rw [considerProc, if_neg (by simp [hm, hs]), if_neg (not_lt.mpr ha),
    if_neg (not_le.mpr hr)]
  simp only [hct]

theorem prefixAt_iff (n h : List Char) : prefixAt n h = true ↔ ∃ r, h = n ++ r := by
  induction n generalizing h with
  | nil => simp [prefixAt]
  | cons a as ih =>
    cases h with
    | nil => simp [prefixAt]
    | cons b bs =>
      simp only [prefixAt, Bool.and_eq_true, beq_iff_eq, ih]
      constructor
      · rintro ⟨hab, r, hr⟩
        exact ⟨r, by simp [hab, hr]⟩
      · rintro ⟨r, hr⟩
        rw [List.cons_append] at hr
        injection hr with h1 h2
        exact ⟨h1.symm, r, h2⟩

theorem strstrFound_iff (h n : List Char) : strstrFound h n = true ↔ occursIn n h := by
  induction h with
  | nil =>
    simp only [strstrFound, prefixAt_iff, occursIn]
    constructor
    · rintro ⟨r, hr⟩
      exact ⟨[], r, by simpa using hr⟩
    · rintro ⟨l, r, hr⟩
      have hn : n = [] := by
        have hlen := congrArg List.length hr
        simp only [List.length_nil, List.length_append] at hlen
        exact List.eq_nil_of_length_eq_zero (by omega)
      exact ⟨[], by simp [hn]⟩
  | cons c t ih =>
    simp only [strstrFound, Bool.or_eq_true, prefixAt_iff, ih, occursIn]
    constructor
    · rintro (⟨r, hr⟩ | ⟨l, r, hr⟩)
      · exact ⟨[], r, by simpa using hr⟩
      · exact ⟨c :: l, r, by simp [hr]⟩
    · rintro ⟨l, r, hr⟩
      cases l with
      | nil => exact Or.inl ⟨r, by simpa using hr⟩
      | cons x xs =>
        rw [List.cons_append, List.cons_append] at hr
        exact Or.inr ⟨xs, r, (List.cons.injEq _ _ _ _ ▸ hr).2⟩

theorem strstrFound_nil_needle (h : List Char) : strstrFound h [] = true := by
  cases h <;> simp [strstrFound, prefixAt]

theorem is_in_donotkill_list_iff (name : List Char) (d : Donotkill) :
    is_in_donotkill_list name d = true ↔
      (d.enabled = true ∧ d.names ≠ [] ∧ ∃ nm ∈ d.names, occursIn name nm) := by
  unfold is_in_donotkill_list
  by_cases he : (d.enabled = true) ∧ d.names.length > 0
  · rw [if_pos (by simpa using he)]
    simp [List.any_eq_true, strstrFound_iff, he.1, List.ne_nil_of_length_pos he.2]
  · rw [if_neg (by simpa using he)]
    simp only [Bool.false_eq_true, false_iff]
    rintro ⟨h1, h2, -⟩
    exact he ⟨h1, List.length_pos.mpr h2⟩

theorem classify_ne_killable_iff (u s : Donotkill) (name : List Char) :
    classify u s name ≠ ProcType.killable ↔
      (is_in_donotkill_list name u = true ∨ is_in_donotkill_list name s = true) := by
  unfold classify
  by_cases hu : is_in_donotkill_list name u = true
  · simp [hu]
  · by_cases hs : is_in_donotkill_list name s = true
    · simp [hu, hs]
    · simp [hu, hs]

theorem resolveMinAdj_eq_find (entries : List (Int × Nat)) (free file : Nat) :
    resolveMinAdj entries free file =
      (((entries.find? fun e => decide (free < e.2 ∧ file < e.2)).map Prod.fst).getD
        (OOM_ADJUST_MAX + 1)) := by
  induction entries with
  | nil => rfl
  | cons e rest ih =>
    obtain ⟨a, mf⟩ := e
    by_cases hc : free < mf ∧ file < mf
    · rw [resolveMinAdj, if_pos hc, List.find?_cons_of_pos _ (by simpa using hc)]
      rfl
    · rw [resolveMinAdj, if_neg hc, List.find?_cons_of_neg _ (by simpa using hc), ih]

theorem stepState_deathpending_none (st : LmkState) (e : Event)
    (h : st.deathpending = none) : (stepState st e).deathpending = none := by
  cases e with
  | shrink cfg mem procs j n =>
    simp only [stepState, lowmem_shrink]
    rw [if_neg (by simp [h])]
    split
    · exact h
    · split
      · exact h
      · exact h
  | notify pid =>
    simp only [stepState, task_notify_func]
    split <;> simp [h]

theorem foldl_deathpending_none (es : List Event) (st : LmkState)
    (h : st.deathpending = none) : (es.foldl stepState st).deathpending = none := by
  induction es generalizing st with
  | nil => exact h
  | cons e rest ih => exact ih _ (stepState_deathpending_none st e h)

/-! ### Claim theorems -/

/-- C1 (counterexample): the claim says the classifier protects exactly
when some configured token occurs as a substring of the process name.
With the user list enabled and holding the single token "ab", the
process named "b" is classified protected by the code (the code's
`strstr(names[i], proc_name)` tests the process name inside the token),
although the token "ab" does not occur inside the name "b": the
classifier built from the spec's words returns Killable there. -/
theorem C1_counterexample :
    classify ceU dkOff ceName = ProcType.doNotKill ∧
    classifySpecWords ceU dkOff ceName = ProcType.killable ∧
    strstrFound ceName ceTok = false := by
  decide

/-- C1 (amended): the classifier returns a protected class exactly when
the *process name* occurs as a substring anywhere inside some configured
token of an enabled, non-empty protection list (user list checked first,
then system list); otherwise the process is Killable. -/
theorem C1_classify_substring_direction (u s : Donotkill) (name : List Char) :
    classify u s name ≠ ProcType.killable ↔
      ((u.enabled = true ∧ u.names ≠ [] ∧ ∃ nm ∈ u.names, occursIn name nm) ∨
       (s.enabled = true ∧ s.names ≠ [] ∧ ∃ nm ∈ s.names, occursIn name nm)) := by
  rw [classify_ne_killable_iff, is_in_donotkill_list_iff, is_in_donotkill_list_iff]

/-- C4: the threshold-resolution loop returns the `lowmem_adj` component
of the first (lowest-index) entry whose `lowmem_minfree` strictly
exceeds both the free-page count and the cache-page count, and returns
the NONE sentinel `OOM_ADJUST_MAX + 1` (which the caller tests to skip
victim selection) when no entry satisfies both conditions.  Stated via
`List.find?`, which yields exactly the first matching entry. -/
theorem C4_resolve_first_match (entries : List (Int × Nat)) (free file : Nat) :
    resolveMinAdj entries free file =
      (((entries.find? fun e => decide (free < e.2 ∧ file < e.2)).map Prod.fst).getD
        (OOM_ADJUST_MAX + 1)) :=
  resolveMinAdj_eq_find entries free file

/-- C5: the kill loop walks the classes in the fixed order Killable,
ProtectedUser, ProtectedSystem, and acts on the first class whose slot
is non-empty (so a Killable candidate always wins over any protected
one, whatever its priority or size), returning NONE exactly when every
class is empty. -/
theorem C5_selector_fixed_order (st : SelectionState) :
    (selectVictim st).map Prod.fst =
      (st.killable.task.or (st.user.task.or st.sys.task)) ∧
    (selectVictim st = none ↔
      st.killable.task = none ∧ st.user.task = none ∧ st.sys.task = none) := by
  obtain ⟨⟨k, ks, ka⟩, ⟨u, us, ua⟩, ⟨s, ss, sa⟩⟩ := st
  cases k <;> cases u <;> cases s <;> simp [selectVictim, Option.or]

/-- C10: with the code's `strstr(configured_name, proc_name)` call, an
empty process name is a substring of every configured entry, so whenever
the user or the system protection list is enabled and non-empty, the
empty-named process is never classified Killable. -/
theorem C10_empty_name_protected (u s : Donotkill)
    (h : (u.enabled = true ∧ u.names ≠ []) ∨ (s.enabled = true ∧ s.names ≠ [])) :
    classify u s [] ≠ ProcType.killable := by
  rw [classify_ne_killable_iff, is_in_donotkill_list_iff, is_in_donotkill_list_iff]
  rcases h with ⟨he, hn⟩ | ⟨he, hn⟩
  · obtain ⟨nm, hnm⟩ := List.exists_mem_of_ne_nil _ hn
    exact Or.inl ⟨he, hn, nm, hnm, [], nm, rfl⟩
  · obtain ⟨nm, hnm⟩ := List.exists_mem_of_ne_nil _ hn
    exact Or.inr ⟨he, hn, nm, hnm, [], nm, rfl⟩

/-- C10 witness: with the enabled one-entry list `uProt` the empty name
is classified protected. -/
theorem C10_witness :
    ((uProt.enabled = true ∧ uProt.names ≠ []) ∨
      (dkOff.enabled = true ∧ dkOff.names ≠ [])) ∧
    classify uProt dkOff [] ≠ ProcType.killable :=
  ⟨Or.inl ⟨rfl, by decide⟩,
    C10_empty_name_protected uProt dkOff (Or.inl ⟨rfl, by decide⟩)⟩

/-- C2 (code bug evaluated): the kill path sets only
`lowmem_deathpending_timeout = jiffies + HZ` and never assigns
`lowmem_deathpending`, so no pending kill naming the victim is created.
Concretely: a first pass at jiffies 0 kills `procA` and leaves
`deathpending = NULL` with timeout 100; a second trigger at jiffies 1 —
before the expiry and with no exit notification processed — runs the
candidate evaluation again and kills `procA` a second time, instead of
the zero selection the claim requires. -/
theorem C2_second_trigger_kills_again :
    (lowmem_shrink cfgA memA [procA] 0 1 initLmkState).killed = some procA ∧
    (lowmem_shrink cfgA memA [procA] 0 1 initLmkState).state =
      ⟨none, HZ⟩ ∧
    (lowmem_shrink cfgA memA [procA] 1 1 ⟨none, HZ⟩).killed = some procA := by
  decide

/-- C3 (counterexample): in a state where a pending kill exists
(`deathpending = some 7`) and is unexpired (jiffies 0 ≤ timeout 100),
the scan returns 0 — not the reclaimable estimate, which is 5 for
`memA` — so the estimate is *not* reported during cooldown. -/
theorem C3_counterexample :
    (lowmem_shrink cfgA memA [] 0 1 ⟨some 7, 100⟩).ret = 0 ∧
    reclaimEstimate memA = 5 ∧
    (lowmem_shrink cfgA memA [] 0 1 ⟨some 7, 100⟩).killed = none := by
  decide

/-- C3 (amended): when a pending kill exists and is not yet expired, a
scan trigger returns 0 to the trigger source — skipping the estimate
computation entirely — selects no victim, and leaves the state
unchanged. -/
theorem C3_cooldown_returns_zero (cfg : Config) (mem : MemStats) (procs : List Proc)
    (j n : Nat) (st : LmkState)
    (h1 : st.deathpending.isSome = true) (h2 : j ≤ st.deathpending_timeout) :
    lowmem_shrink cfg mem procs j n st = ⟨0, st, none⟩ := by
  rw [lowmem_shrink, if_pos ⟨h1, h2⟩]

/-- C3 witness: the amended statement at a concrete cooldown state. -/
theorem C3_witness :
    ((⟨some 7, 100⟩ : LmkState).deathpending.isSome = true ∧ (0 : Nat) ≤ 100) ∧
    lowmem_shrink cfgA memA [] 0 1 ⟨some 7, 100⟩ = ⟨0, ⟨some 7, 100⟩, none⟩ :=
  ⟨⟨rfl, by decide⟩, C3_cooldown_returns_zero cfgA memA [] 0 1 ⟨some 7, 100⟩ rfl (by decide)⟩

/-- C7: on a pass whose state carries no pending-kill pointer (the case
in every reachable state), if the requested scan amount is zero (the
field is unsigned, so "zero or less" means zero) or no threshold entry
matches the free/cache counts, the pass kills nothing, leaves the state
unchanged, and returns the reclaimable estimate — the sum of active
anonymous, active file, inactive anonymous and inactive file pages. -/
theorem C7_report_only (cfg : Config) (mem : MemStats) (procs : List Proc)
    (j n : Nat) (st : LmkState)
    (hdp : st.deathpending = none)
    (h : n = 0 ∨
      (entriesOf cfg).find?
        (fun e => decide (mem.other_free < e.2 ∧ mem.other_file < e.2)) = none) :
    lowmem_shrink cfg mem procs j n st =
      ⟨(mem.active_anon : Int) + mem.active_file + mem.inactive_anon + mem.inactive_file,
        st, none⟩ := by
  rw [lowmem_shrink, if_neg (by simp [hdp])]
  rcases h with h | h
  · rw [if_pos (Or.inl h)]
    rfl
  · rw [if_pos (Or.inr (by rw [resolveMinAdj_eq_find, h]; rfl))]
    rfl

/-- C7 witness: with `cfgB` no entry matches (its only threshold is 0),
so a trigger with requested amount 5 only reports the estimate. -/
theorem C7_witness :
    (initLmkState.deathpending = none ∧
      (entriesOf cfgB).find?
        (fun e => decide (memA.other_free < e.2 ∧ memA.other_file < e.2)) = none) ∧
    lowmem_shrink cfgB memA [procA] 3 5 initLmkState = ⟨5, initLmkState, none⟩ := by
  refine ⟨⟨rfl, by decide⟩, ?_⟩
  rw [C7_report_only cfgB memA [procA] 3 5 initLmkState rfl (Or.inr (by decide))]
  decide

/-- C9: in every state reachable from module load through any sequence
of shrink calls and exit notifications, `lowmem_deathpending` is NULL —
the notifier only ever clears it and the kill path assigns only the
timeout — and therefore the cooldown guard
`lowmem_deathpending && time_before_eq(jiffies, timeout)` at the top of
`lowmem_shrink` is false at every jiffies value: it never suppresses
candidate evaluation. -/
theorem C9_deathpending_always_null (es : List Event) (j : Nat) :
    (runEvents es).deathpending = none ∧
    ¬((runEvents es).deathpending.isSome ∧
        j ≤ (runEvents es).deathpending_timeout) := by
  have h : (runEvents es).deathpending = none :=
    foldl_deathpending_none es initLmkState rfl
  exact ⟨h, by simp [h]⟩

/-- C6: scanning two eligible candidates of the same protection class in
either order, the class's best slot ends with the strictly higher
`oom_adj` one; on equal `oom_adj`, the larger `rss` one; and when both
are equal, the earlier-enumerated one is kept. -/
theorem C6_tiebreak (u s : Donotkill) (m : Int) (p q : Proc) (t : ProcType)
    (hpm : p.has_mm = true) (hps : p.has_sig = true)
    (hqm : q.has_mm = true) (hqs : q.has_sig = true)
    (hpa : m ≤ p.oom_adj) (hqa : m ≤ q.oom_adj)
    (hpr : 0 < p.rss) (hqr : 0 < q.rss)
    (hcp : classify u s p.comm = t) (hcq : classify u s q.comm = t) :
    ((scanProcs u s m [p, q]).get t).task =
      some (if p.oom_adj < q.oom_adj ∨ (p.oom_adj = q.oom_adj ∧ p.rss < q.rss)
        then q else p) ∧
    ((scanProcs u s m [q, p]).get t).task =
      some (if q.oom_adj < p.oom_adj ∨ (q.oom_adj = p.oom_adj ∧ q.rss < p.rss)
        then p else q) := by
  have two : ∀ a b : Proc, a.has_mm = true → a.has_sig = true →
      b.has_mm = true → b.has_sig = true → m ≤ a.oom_adj → m ≤ b.oom_adj →
      0 < a.rss → 0 < b.rss →
      classify u s a.comm = t → classify u s b.comm = t →
      ((scanProcs u s m [a, b]).get t).task =
        some (if a.oom_adj < b.oom_adj ∨ (a.oom_adj = b.oom_adj ∧ a.rss < b.rss)
          then b else a) := by
    intro a b ham has hbm hbs haa hba har hbr hca hcb
    have h1 : considerProc u s m (initSelection m) a =
        (initSelection m).set t ⟨some a, a.rss, a.oom_adj⟩ := by
      rw [considerProc_eligible u s m _ a t ham has haa har hca,
        if_neg (by simp [initSelection_get])]
    have h2 := considerProc_eligible u s m
      ((initSelection m).set t ⟨some a, a.rss, a.oom_adj⟩) b t hbm hbs hba hbr hcb
    rw [get_set_same] at h2
    have hfold : scanProcs u s m [a, b] =
        considerProc u s m (considerProc u s m (initSelection m) a) b := rfl
    rw [hfold, h1, h2]
    by_cases hcond : b.oom_adj < a.oom_adj ∨ (b.oom_adj = a.oom_adj ∧ b.rss ≤ a.rss)
    · rw [if_pos (by simpa using hcond), get_set_same,
        if_neg (by rintro (h | ⟨h3, h4⟩) <;> rcases hcond with h5 | ⟨h5, h6⟩ <;> omega)]
    · rw [if_neg (by simpa using hcond), get_set_same, if_pos ?_]
      push_neg at hcond
      rcases lt_trichotomy a.oom_adj b.oom_adj with h | h | h
      · exact Or.inl h
      · exact Or.inr ⟨h, hcond.2 h.symm⟩
      · exact absurd h (not_lt.mpr hcond.1)
  exact ⟨two p q hpm hps hqm hqs hpa hqa hpr hqr hcp hcq,
    two q p hqm hqs hpm hps hqa hpa hqr hpr hcq hcp⟩

/-- C6 witness: equal oom_adj 3, rss 10 versus 20 — in both enumeration
orders the larger process `procQ` ends up selected. -/
theorem C6_witness :
    ((0 : Int) ≤ procP.oom_adj ∧ (0 : Int) < procP.rss ∧
      classify dkOff dkOff procP.comm = ProcType.killable) ∧
    ((scanProcs dkOff dkOff 0 [procP, procQ]).get ProcType.killable).task = some procQ ∧
    ((scanProcs dkOff dkOff 0 [procQ, procP]).get ProcType.killable).task = some procQ := by
  have h := C6_tiebreak dkOff dkOff 0 procP procQ ProcType.killable
    rfl rfl rfl rfl (by decide) (by decide) (by decide) (by decide)
    (by decide) (by decide)
  refine ⟨⟨by decide, by decide, by decide⟩, ?_, ?_⟩
  · rw [h.1]; decide
  · rw [h.2]; decide

/-- C8: the loop bound `array_size` is at most each configured length
and at most the fixed capacity 6, and threshold resolution reads only
the array cells below that bound: two configurations with the same
configured lengths that agree on those cells resolve identically, so no
entry is ever evaluated with only one of its two components present. -/
theorem C8_truncation (cfg cfg2 : Config)
    (hsa : cfg.lowmem_adj_size = cfg2.lowmem_adj_size)
    (hsm : cfg.lowmem_minfree_size = cfg2.lowmem_minfree_size)
    (hagree : ∀ i, i < array_size_calc cfg.lowmem_adj_size cfg.lowmem_minfree_size →
      cfg.lowmem_adj i = cfg2.lowmem_adj i ∧ cfg.lowmem_minfree i = cfg2.lowmem_minfree i)
    (free file : Nat) :
    array_size_calc cfg.lowmem_adj_size cfg.lowmem_minfree_size ≤ cfg.lowmem_adj_size ∧
    array_size_calc cfg.lowmem_adj_size cfg.lowmem_minfree_size ≤ cfg.lowmem_minfree_size ∧
    array_size_calc cfg.lowmem_adj_size cfg.lowmem_minfree_size ≤ 6 ∧
    resolveMinAdj (entriesOf cfg) free file = resolveMinAdj (entriesOf cfg2) free file := by
  refine ⟨?_, ?_, ?_, ?_⟩
  · unfold array_size_calc; dsimp only; split_ifs <;> omega
  · unfold array_size_calc; dsimp only; split_ifs <;> omega
  · unfold array_size_calc; dsimp only; split_ifs <;> omega
  · have hentries : entriesOf cfg = entriesOf cfg2 := by
      unfold entriesOf
      rw [← hsa, ← hsm]
      refine List.map_congr_left ?_
      intro i hi
      obtain ⟨h1, h2⟩ := hagree i (List.mem_range.mp hi)
      rw [h1, h2]
    rw [hentries]

/-- C8 witness: `cfgB` and `cfgC` share the configured lengths (1) and
the cell at index 0 but differ at every higher index; resolution agrees
on them. -/
theorem C8_witness :
    (cfgB.lowmem_adj_size = cfgC.lowmem_adj_size ∧
      cfgB.lowmem_minfree_size = cfgC.lowmem_minfree_size ∧
      ∀ i, i < array_size_calc cfgB.lowmem_adj_size cfgB.lowmem_minfree_size →
        cfgB.lowmem_adj i = cfgC.lowmem_adj i ∧
        cfgB.lowmem_minfree i = cfgC.lowmem_minfree i) ∧
    (array_size_calc cfgB.lowmem_adj_size cfgB.lowmem_minfree_size ≤
        cfgB.lowmem_adj_size ∧
      array_size_calc cfgB.lowmem_adj_size cfgB.lowmem_minfree_size ≤
        cfgB.lowmem_minfree_size ∧
      array_size_calc cfgB.lowmem_adj_size cfgB.lowmem_minfree_size ≤ 6 ∧
      resolveMinAdj (entriesOf cfgB) 0 0 = resolveMinAdj (entriesOf cfgC) 0 0) := by
  have hag : ∀ i, i < array_size_calc cfgB.lowmem_adj_size cfgB.lowmem_minfree_size →
      cfgB.lowmem_adj i = cfgC.lowmem_adj i ∧
      cfgB.lowmem_minfree i = cfgC.lowmem_minfree i := by
    intro i hi
    have hi1 : i < 1 := hi
    have h0 : i = 0 := by omega
    subst h0
    exact ⟨rfl, rfl⟩
  exact ⟨⟨rfl, rfl, hag⟩, C8_truncation cfgB cfgC rfl rfl hag 0 0⟩

end LMK
